import Mathlib

/-!
# Verification of the URL-signing utilities and React hooks

Shallow embedding of the `simple-r2-utils`, `simple-cf-image-utils`,
`simple-cf-video-utils` packages and of the `use-network-status` /
`use-fetch` React hooks, together with proofs of the specification
claims about them.

Modelling conventions:
* machine integers and JS numbers are `Nat`;
* byte strings are `List Nat` with every element below 256 by construction;
* `node:crypto`'s `createHash("sha256")` / `createHmac("sha256", k)` and the
  Web Crypto HMAC are modelled by a full executable SHA-256 / HMAC-SHA-256
  implementation over byte lists (FIPS 180-4, RFC 2104);
* `Date` timestamps are passed explicitly as epoch milliseconds.
-/

set_option maxRecDepth 100000

namespace Crypto

/-- Truncated addition on 32-bit words represented as naturals. -/
def add32 (a b : Nat) : Nat := (a + b) % 4294967296

/-- Right rotation of a 32-bit word (values below `2 ^ 32`). -/
def rotr32 (n x : Nat) : Nat := x / 2 ^ n + x % 2 ^ n * 2 ^ (32 - n)

/-- Bitwise complement of a 32-bit word. -/
def not32 (x : Nat) : Nat := 4294967295 - x

/-- SHA-256 `Ch` function. -/
def ch (x y z : Nat) : Nat := (x &&& y) ^^^ (not32 x &&& z)

/-- SHA-256 `Maj` function. -/
def maj (x y z : Nat) : Nat := (x &&& y) ^^^ (x &&& z) ^^^ (y &&& z)

/-- SHA-256 big sigma-0. -/
def bsig0 (x : Nat) : Nat := rotr32 2 x ^^^ rotr32 13 x ^^^ rotr32 22 x

/-- SHA-256 big sigma-1. -/
def bsig1 (x : Nat) : Nat := rotr32 6 x ^^^ rotr32 11 x ^^^ rotr32 25 x

/-- SHA-256 small sigma-0. -/
def ssig0 (x : Nat) : Nat := rotr32 7 x ^^^ rotr32 18 x ^^^ x / 2 ^ 3

/-- SHA-256 small sigma-1. -/
def ssig1 (x : Nat) : Nat := rotr32 17 x ^^^ rotr32 19 x ^^^ x / 2 ^ 10

/-- The 64 SHA-256 round constants, in decimal. -/
def shaK : List Nat :=
  [1116352408, 1899447441, 3049323471, 3921009573, 961987163,
   1508970993, 2453635748, 2870763221, 3624381080, 310598401,
   607225278, 1426881987, 1925078388, 2162078206, 2614888103,
   3248222580, 3835390401, 4022224774, 264347078, 604807628,
   770255983, 1249150122, 1555081692, 1996064986, 2554220882,
   2821834349, 2952996808, 3210313671, 3336571891, 3584528711,
   113926993, 338241895, 666307205, 773529912, 1294757372,
   1396182291, 1695183700, 1986661051, 2177026350, 2456956037,
   2730485921, 2820302411, 3259730800, 3345764771, 3516065817,
   3600352804, 4094571909, 275423344, 430227734, 506948616,
   659060556, 883997877, 958139571, 1322822218, 1537002063,
   1747873779, 1955562222, 2024104815, 2227730452, 2361852424,
   2428436474, 2756734187, 3204031479, 3329325298]

/-- The SHA-256 initial hash value, in decimal. -/
def shaH0 : List Nat :=
  [1779033703, 3144134277, 1013904242, 2773480762,
   1359893119, 2600822924, 528734635, 1541459225]

/-- One step extending the message schedule by one word. -/
def scheduleStep (w : Array Nat) (_i : Nat) : Array Nat :=
  let n := w.size
  w.push (add32 (add32 (ssig1 (w.getD (n - 2) 0)) (w.getD (n - 7) 0))
               (add32 (ssig0 (w.getD (n - 15) 0)) (w.getD (n - 16) 0)))

/-- The 64-word message schedule of a 16-word block. -/
def msgSchedule (block : List Nat) : Array Nat :=
  (List.range 48).foldl scheduleStep block.toArray

/-- Working state of the SHA-256 compression loop. -/
structure Sha8 where
  a : Nat
  b : Nat
  c : Nat
  d : Nat
  e : Nat
  f : Nat
  g : Nat
  h : Nat

/-- One round of the SHA-256 compression function. -/
def roundStep (w : Array Nat) (s : Sha8) (t : Nat) : Sha8 :=
  let t1 := add32 (add32 (add32 s.h (bsig1 s.e))
                         (add32 (ch s.e s.f s.g) (shaK.getD t 0)))
                  (w.getD t 0)
  let t2 := add32 (bsig0 s.a) (maj s.a s.b s.c)
  ⟨add32 t1 t2, s.a, s.b, s.c, add32 s.d t1, s.e, s.f, s.g⟩

/-- SHA-256 compression of one 16-word block into the running hash. -/
def compressBlock (h : List Nat) (block : List Nat) : List Nat :=
  let w := msgSchedule block
  let s0 : Sha8 := ⟨h.getD 0 0, h.getD 1 0, h.getD 2 0, h.getD 3 0,
                    h.getD 4 0, h.getD 5 0, h.getD 6 0, h.getD 7 0⟩
  let s := (List.range 64).foldl (roundStep w) s0
  [add32 (h.getD 0 0) s.a, add32 (h.getD 1 0) s.b, add32 (h.getD 2 0) s.c,
   add32 (h.getD 3 0) s.d, add32 (h.getD 4 0) s.e, add32 (h.getD 5 0) s.f,
   add32 (h.getD 6 0) s.g, add32 (h.getD 7 0) s.h]

/-- Big-endian 8-byte rendering of a length in bits. -/
def be64 (n : Nat) : List Nat :=
  [n / 2 ^ 56 % 256, n / 2 ^ 48 % 256, n / 2 ^ 40 % 256, n / 2 ^ 32 % 256,
   n / 2 ^ 24 % 256, n / 2 ^ 16 % 256, n / 2 ^ 8 % 256, n % 256]

/-- FIPS 180-4 padding: `0x80`, zeros to 56 mod 64, then the bit length. -/
def padMessage (msg : List Nat) : List Nat :=
  msg ++ 0x80 :: List.replicate ((119 - msg.length % 64) % 64) 0
      ++ be64 (msg.length * 8)

/-- Group bytes into big-endian 32-bit words. -/
def group4 : List Nat → List Nat
  | a :: b :: c :: d :: rest => (a * 2 ^ 24 + b * 2 ^ 16 + c * 2 ^ 8 + d) :: group4 rest
  | _ => []

/-- Group a word list into 16-word blocks. -/
def blocksOf16 : List Nat → List (List Nat)
  | w0 :: w1 :: w2 :: w3 :: w4 :: w5 :: w6 :: w7 ::
    w8 :: w9 :: w10 :: w11 :: w12 :: w13 :: w14 :: w15 :: rest =>
      [w0, w1, w2, w3, w4, w5, w6, w7, w8, w9, w10, w11, w12, w13, w14, w15] ::
        blocksOf16 rest
  | _ => []

/-- Big-endian bytes of one 32-bit word. -/
def wordBytes (x : Nat) : List Nat :=
  [x / 2 ^ 24 % 256, x / 2 ^ 16 % 256, x / 2 ^ 8 % 256, x % 256]

/-- SHA-256 digest of a byte list, as 32 bytes. -/
def sha256Bytes (msg : List Nat) : List Nat :=
  (((blocksOf16 (group4 (padMessage msg))).foldl compressBlock shaH0).map wordBytes).flatten

/-- Lowercase hexadecimal digit characters. -/
def hexChars : List Char := "0123456789abcdef".data

/-- Lowercase hex digit for a value below 16. -/
def hexDigit (n : Nat) : Char := hexChars.getD n '0'

/-- Two lowercase hex digits of one byte. -/
def byteHex (b : Nat) : List Char := [hexDigit (b / 16 % 16), hexDigit (b % 16)]

/-- Lowercase hexadecimal rendering of a byte list. -/
def bytesToHex (bs : List Nat) : String := ⟨bs.flatMap byteHex⟩

/-- UTF-8 encoding of one character. -/
def utf8Char (c : Char) : List Nat :=
  let n := c.toNat
  if n < 0x80 then [n]
  else if n < 0x800 then [0xC0 + n / 64, 0x80 + n % 64]
  else if n < 0x10000 then [0xE0 + n / 4096, 0x80 + n / 64 % 64, 0x80 + n % 64]
  else [0xF0 + n / 262144, 0x80 + n / 4096 % 64, 0x80 + n / 64 % 64, 0x80 + n % 64]

/-- UTF-8 encoding of a string, as `node:crypto` and `TextEncoder` produce. -/
def utf8Bytes (s : String) : List Nat := s.data.flatMap utf8Char

/-- SHA-256 of a string, as a lowercase hex string (`digest("hex")`). -/
def sha256Hex (s : String) : String := bytesToHex (sha256Bytes (utf8Bytes s))

/-- HMAC-SHA-256 (RFC 2104) with byte-list key and message. -/
def hmacSha256 (key msg : List Nat) : List Nat :=
  let k0 := if 64 < key.length then sha256Bytes key else key
  let kp := k0 ++ List.replicate (64 - k0.length) 0
  sha256Bytes (kp.map (· ^^^ 0x5c) ++ sha256Bytes (kp.map (· ^^^ 0x36) ++ msg))

/-- HMAC-SHA-256 of a string message under a byte-list key, hex output. -/
def hmacSha256Hex (key : List Nat) (msg : String) : String :=
  bytesToHex (hmacSha256 key (utf8Bytes msg))

end Crypto

namespace JsWeb

open Crypto

/-- Uppercase hexadecimal digit characters, as percent-encoding produces. -/
def hexUpper : List Char := "0123456789ABCDEF".data

/-- Percent-encoding of one byte: `%` followed by two uppercase hex digits. -/
def pctByte (b : Nat) : List Char :=
  ['%', hexUpper.getD (b / 16 % 16) '0', hexUpper.getD (b % 16) '0']

/-- The characters `encodeURIComponent` leaves unescaped:
letters, digits, and `- _ . ! ~ * ' ( )`. -/
def isUriUnreserved (c : Char) : Bool :=
  c.isAlphanum || c = '-' || c = '_' || c = '.' || c = '!' || c = '~' ||
    c = '*' || c.toNat = 39 || c = '(' || c = ')'

/-- JavaScript `encodeURIComponent`: unreserved characters kept, all other
characters percent-encoded byte-by-byte in UTF-8. -/
def encodeURIComponent (s : String) : String :=
  ⟨s.data.flatMap fun c =>
    if isUriUnreserved c then [c] else (utf8Char c).flatMap pctByte⟩

/-- The characters `application/x-www-form-urlencoded` serialization keeps:
letters, digits, and `* - . _`. -/
def isFormSafe (c : Char) : Bool :=
  c.isAlphanum || c = '*' || c = '-' || c = '.' || c = '_'

/-- One character under `URLSearchParams.toString()` encoding:
safe characters kept, space becomes `+`, the rest percent-encoded. -/
def formEncodeChar (c : Char) : List Char :=
  if isFormSafe c then [c]
  else if c = ' ' then ['+']
  else (utf8Char c).flatMap pctByte

/-- A string under `URLSearchParams.toString()` encoding. -/
def formEncode (s : String) : String := ⟨s.data.flatMap formEncodeChar⟩

/-- `URLSearchParams.toString()`: `k=v` pairs joined with `&`,
keys and values form-encoded, in list order. -/
def formQueryString (ps : List (String × String)) : String :=
  String.intercalate "&" (ps.map fun kv => formEncode kv.1 ++ "=" ++ formEncode kv.2)

/-- `URLSearchParams.set`: replace the first entry with the given key and
drop later duplicates; append at the end when the key is absent. -/
def searchParamsSet : List (String × String) → String → String → List (String × String)
  | [], k, v => [(k, v)]
  | p :: ps, k, v =>
    if p.1 = k then (k, v) :: ps.filter (fun q => ¬ q.1 = k)
    else p :: searchParamsSet ps k v

/-- Lexicographic code-point comparison of character lists. -/
def charListLe : List Char → List Char → Bool
  | [], _ => true
  | _ :: _, [] => false
  | a :: as, b :: bs =>
    if a.toNat < b.toNat then true
    else if b.toNat < a.toNat then false
    else charListLe as bs

/-- Code-point comparison of strings.  `String.localeCompare` (default
locale) is modelled as code-point comparison; on the ASCII keys these
packages sort, the two orders agree. -/
def strLe (a b : String) : Bool := charListLe a.data b.data

/-- Ordering of query parameters by key. -/
def keyLE (p q : String × String) : Prop := strLe p.1 q.1 = true

instance : DecidableRel keyLE := fun p q => instDecidableEqBool (strLe p.1 q.1) true

instance : IsTotal (String × String) keyLE := by
  constructor
  intro p q
  show charListLe p.1.data q.1.data = true ∨ charListLe q.1.data p.1.data = true
  generalize p.1.data = l1
  generalize q.1.data = l2
  induction l1 generalizing l2 with
  | nil => exact Or.inl rfl
  | cons a as ih =>
    cases l2 with
    | nil => exact Or.inr rfl
    | cons b bs =>
      simp only [charListLe]
      rcases Nat.lt_trichotomy a.toNat b.toNat with h | h | h
      · left; simp [h]
      · have h1 : ¬ a.toNat < b.toNat := by omega
        have h2 : ¬ b.toNat < a.toNat := by omega
        simpa [h1, h2] using ih bs
      · right; simp [h, Nat.lt_asymm h]

instance : IsTrans (String × String) keyLE := by
  constructor
  intro p q r
  show charListLe p.1.data q.1.data = true → charListLe q.1.data r.1.data = true →
    charListLe p.1.data r.1.data = true
  generalize p.1.data = l1
  generalize q.1.data = l2
  generalize r.1.data = l3
  induction l1 generalizing l2 l3 with
  | nil => intro _ _; rfl
  | cons a as ih =>
    cases l2 with
    | nil => intro h12; simp [charListLe] at h12
    | cons b bs =>
      cases l3 with
      | nil => intro _ h23; simp [charListLe] at h23
      | cons c cs =>
        intro h12 h23
        simp only [charListLe] at h12 h23 ⊢
        split_ifs at h12 h23 ⊢ <;> first | rfl | omega | (exact ih bs cs h12 h23)

/-- `Array.prototype.sort` with the key comparator: a stable sort by key,
modelled by insertion sort (stable, like the engine's TimSort). -/
def sortByKey (ps : List (String × String)) : List (String × String) :=
  List.insertionSort keyLE ps

/-- Proleptic-Gregorian date from a day count since 1970-01-01
(civil-from-days, valid for all days at or after the epoch). -/
def civilFromDays (z0 : Nat) : Nat × Nat × Nat :=
  let z := z0 + 719468
  let era := z / 146097
  let doe := z % 146097
  let yoe := (doe - doe / 1460 + doe / 36524 - doe / 146097) / 365
  let y := yoe + era * 400
  let doy := doe - (365 * yoe + yoe / 4 - yoe / 100)
  let mp := (5 * doy + 2) / 153
  let d := doy - (153 * mp + 2) / 5 + 1
  if mp < 10 then (y, mp + 3, d) else (y + 1, mp - 9, d)

/-- Zero-padded two-digit decimal. -/
def pad2 (n : Nat) : String := if n < 10 then "0" ++ toString n else toString n

/-- Zero-padded three-digit decimal. -/
def pad3 (n : Nat) : String :=
  if n < 10 then "00" ++ toString n
  else if n < 100 then "0" ++ toString n
  else toString n

/-- Zero-padded four-digit decimal. -/
def pad4 (n : Nat) : String :=
  if n < 10 then "000" ++ toString n
  else if n < 100 then "00" ++ toString n
  else if n < 1000 then "0" ++ toString n
  else toString n

/-- `Date.prototype.toISOString` for an epoch-milliseconds timestamp:
`YYYY-MM-DDTHH:MM:SS.sssZ` (years up to 9999). -/
def toISOString (ms : Nat) : String :=
  let s := ms / 1000
  let dateParts := civilFromDays (s / 86400)
  let secOfDay := s % 86400
  pad4 dateParts.1 ++ "-" ++ pad2 dateParts.2.1 ++ "-" ++ pad2 dateParts.2.2 ++
    "T" ++ pad2 (secOfDay / 3600) ++ ":" ++ pad2 (secOfDay % 3600 / 60) ++ ":" ++
    pad2 (secOfDay % 60) ++ "." ++ pad3 (ms % 1000) ++ "Z"

/-- The regex replace `/[:\-]|\.\d{3}/g` with the empty string: drop every
`:` and `-`, and drop each `.` that three digits follow together with them. -/
def stripAmz : List Char → List Char
  | [] => []
  | ':' :: rest => stripAmz rest
  | '-' :: rest => stripAmz rest
  | '.' :: d1 :: d2 :: d3 :: rest =>
    if d1.isDigit && d2.isDigit && d3.isDigit then stripAmz rest
    else '.' :: stripAmz (d1 :: d2 :: d3 :: rest)
  | c :: rest => c :: stripAmz rest

/-- `new Date().toISOString().replace(/[:\-]|\.\d{3}/g, "")`:
the SigV4 basic-format timestamp `YYYYMMDDTHHMMSSZ`. -/
def amzDateOfMs (ms : Nat) : String := ⟨stripAmz (toISOString ms).data⟩

/-!
### The WHATWG URL parser, as far as `new URL(base + path)` exercises it

`getSignedImageUrlUsingID` builds
`new URL("https://imagedelivery.net/{a}/{i}/{v}")` and reads back
`url.pathname`, `url.searchParams` and `url.toString()`.  The scheme and
host are fixed safe literals, so only the handling of everything after the
authority needs modelling: `#` starts the fragment, a `?` before it starts
the query, the path is split into segments at `/` (and `\`, this being a
special scheme), dot segments are resolved, and each component is
percent-encoded with its percent-encode set.  The form-urlencoded parser
behind `searchParams` (split on `&`/`=`, `+` to space, percent-decode,
UTF-8 decode with U+FFFD for malformed sequences) is modelled as well. -/

/-- Percent-encode one character when it lies in the given percent-encode
set: each of its UTF-8 bytes as `%XX`. -/
def pctEncodeChar (inSet : Char → Bool) (c : Char) : List Char :=
  if inSet c then (utf8Char c).flatMap pctByte else [c]

/-- The path percent-encode set: C0 controls, space, DEL and non-ASCII,
plus `"` `<` `>` `?` and the code points 96 (backtick), 123 and 125 (the
curly braces). -/
def inPathEncodeSet (c : Char) : Bool :=
  c.toNat < 33 || 126 < c.toNat || c.toNat = 34 || c.toNat = 60 || c.toNat = 62 ||
    c.toNat = 63 || c.toNat = 96 || c.toNat = 123 || c.toNat = 125

/-- The special-scheme query percent-encode set: C0/space/DEL/non-ASCII and
`"` `#` `<` `>` `'`. -/
def inQueryEncodeSet (c : Char) : Bool :=
  c.toNat < 33 || 126 < c.toNat || c.toNat = 34 || c.toNat = 35 || c.toNat = 60 ||
    c.toNat = 62 || c.toNat = 39

/-- The fragment percent-encode set: C0/space/DEL/non-ASCII and
`"` `<` `>` and code point 96. -/
def inFragmentEncodeSet (c : Char) : Bool :=
  c.toNat < 33 || 126 < c.toNat || c.toNat = 34 || c.toNat = 60 || c.toNat = 62 ||
    c.toNat = 96

/-- Split at the first `#`: everything after it is the fragment. -/
def splitHash : List Char → List Char × Option (List Char)
  | [] => ([], none)
  | c :: rest =>
    if c = '#' then ([], some rest)
    else
      let p := splitHash rest
      (c :: p.1, p.2)

/-- Split at the first `?`: everything after it is the query. -/
def splitQuery : List Char → List Char × Option (List Char)
  | [] => ([], none)
  | c :: rest =>
    if c = '?' then ([], some rest)
    else
      let p := splitQuery rest
      (c :: p.1, p.2)

/-- The path-start state consumes one leading `/` (or `\`). -/
def dropLeadSlash : List Char → List Char
  | '/' :: rest => rest
  | '\\' :: rest => rest
  | l => l

/-- Split the path into segments at `/` and (special scheme) `\`. -/
def splitSegments : List Char → List (List Char)
  | [] => [[]]
  | c :: rest =>
    if c = '/' ∨ c = '\\' then [] :: splitSegments rest
    else
      match splitSegments rest with
      | s :: ss => (c :: s) :: ss
      | [] => [[c]]

/-- A single-dot path segment: `.` or a case-variant of `%2e`. -/
def isSingleDotSeg (seg : List Char) : Bool :=
  seg = ['.'] || seg.map Char.toLower = "%2e".data

/-- A double-dot path segment: `..` or a case-variant of `.%2e`, `%2e.` or
`%2e%2e`. -/
def isDoubleDotSeg (seg : List Char) : Bool :=
  seg = "..".data || seg.map Char.toLower = ".%2e".data ||
    seg.map Char.toLower = "%2e.".data || seg.map Char.toLower = "%2e%2e".data

/-- The path-state loop over the segments: a double dot pops the previous
segment, a single dot is skipped, and either as the final segment leaves a
trailing empty segment. -/
def resolveSegments (acc : List (List Char)) : List (List Char) → List (List Char)
  | [] => acc
  | [seg] =>
    if isDoubleDotSeg seg then acc.dropLast ++ [[]]
    else if isSingleDotSeg seg then acc ++ [[]]
    else acc ++ [seg]
  | seg :: rest =>
    if isDoubleDotSeg seg then resolveSegments acc.dropLast rest
    else if isSingleDotSeg seg then resolveSegments acc rest
    else resolveSegments (acc ++ [seg]) rest

/-- URL path serialization: `/` before each segment, each segment
percent-encoded with the path set. -/
def serializePath (segments : List (List Char)) : String :=
  ⟨(segments.map fun seg => '/' :: seg.flatMap (pctEncodeChar inPathEncodeSet)).flatten⟩

/-- The numeric value of a hexadecimal digit character. -/
def hexVal (c : Char) : Option Nat :=
  if 48 ≤ c.toNat ∧ c.toNat ≤ 57 then some (c.toNat - 48)
  else if 97 ≤ c.toNat ∧ c.toNat ≤ 102 then some (c.toNat - 87)
  else if 65 ≤ c.toNat ∧ c.toNat ≤ 70 then some (c.toNat - 55)
  else none

/-- Percent-decode to bytes: `%XY` becomes one byte; any other character
contributes its UTF-8 bytes. -/
def percentDecodeBytes : List Char → List Nat
  | [] => []
  | '%' :: c1 :: c2 :: rest =>
    match hexVal c1, hexVal c2 with
    | some hi, some lo => (hi * 16 + lo) :: percentDecodeBytes rest
    | _, _ => utf8Char '%' ++ percentDecodeBytes (c1 :: c2 :: rest)
  | c :: rest => utf8Char c ++ percentDecodeBytes rest

/-- U+FFFD, the replacement character. -/
def repl : Char := Char.ofNat 65533

/-- UTF-8 decoding, with U+FFFD replacing malformed sequences. -/
def utf8Decode : List Nat → List Char
  | [] => []
  | b1 :: rest =>
    if b1 < 128 then Char.ofNat b1 :: utf8Decode rest
    else if 194 ≤ b1 ∧ b1 ≤ 223 then
      match rest with
      | b2 :: rest2 =>
        if 128 ≤ b2 ∧ b2 ≤ 191 then
          Char.ofNat ((b1 - 192) * 64 + (b2 - 128)) :: utf8Decode rest2
        else repl :: utf8Decode (b2 :: rest2)
      | [] => [repl]
    else if 224 ≤ b1 ∧ b1 ≤ 239 then
      match rest with
      | b2 :: b3 :: rest2 =>
        if 128 ≤ b2 ∧ b2 ≤ 191 ∧ 128 ≤ b3 ∧ b3 ≤ 191 then
          (if 2048 ≤ (b1 - 224) * 4096 + (b2 - 128) * 64 + (b3 - 128) ∧
              ((b1 - 224) * 4096 + (b2 - 128) * 64 + (b3 - 128) < 55296 ∨
                57343 < (b1 - 224) * 4096 + (b2 - 128) * 64 + (b3 - 128)) then
            Char.ofNat ((b1 - 224) * 4096 + (b2 - 128) * 64 + (b3 - 128))
          else repl) :: utf8Decode rest2
        else repl :: utf8Decode (b2 :: b3 :: rest2)
      | _ => [repl]
    else if 240 ≤ b1 ∧ b1 ≤ 244 then
      match rest with
      | b2 :: b3 :: b4 :: rest2 =>
        if 128 ≤ b2 ∧ b2 ≤ 191 ∧ 128 ≤ b3 ∧ b3 ≤ 191 ∧ 128 ≤ b4 ∧ b4 ≤ 191 then
          (if 65536 ≤ (b1 - 240) * 262144 + (b2 - 128) * 4096 + (b3 - 128) * 64 + (b4 - 128) ∧
              (b1 - 240) * 262144 + (b2 - 128) * 4096 + (b3 - 128) * 64 + (b4 - 128) ≤ 1114111 then
            Char.ofNat ((b1 - 240) * 262144 + (b2 - 128) * 4096 + (b3 - 128) * 64 + (b4 - 128))
          else repl) :: utf8Decode rest2
        else repl :: utf8Decode (b2 :: b3 :: b4 :: rest2)
      | _ => [repl]
    else repl :: utf8Decode rest
termination_by l => l.length
decreasing_by all_goals (simp only [List.length_cons]; omega)

/-- Split a raw query on `&`. -/
def splitOnAmp : List Char → List (List Char)
  | [] => [[]]
  | c :: rest =>
    if c = '&' then [] :: splitOnAmp rest
    else
      match splitOnAmp rest with
      | s :: ss => (c :: s) :: ss
      | [] => [[c]]

/-- Split a form piece at its first `=` (no `=`: the value is empty). -/
def splitFirstEq : List Char → List Char × List Char
  | [] => ([], [])
  | c :: rest =>
    if c = '=' then ([], rest)
    else
      let p := splitFirstEq rest
      (c :: p.1, p.2)

/-- One form-urlencoded token: `+` to space, percent-decode, UTF-8 decode. -/
def formDecode (l : List Char) : String :=
  ⟨utf8Decode (percentDecodeBytes (l.map fun c => if c = '+' then ' ' else c))⟩

/-- The application/x-www-form-urlencoded parser behind `searchParams`:
split on `&`, skip empty pieces, split each at the first `=`, decode both
sides. -/
def parseFormQuery (q : List Char) : List (String × String) :=
  (splitOnAmp q).filterMap fun piece =>
    if piece = [] then none
    else
      let nv := splitFirstEq piece
      some (formDecode nv.1, formDecode nv.2)

/-- The parsed components of everything after `https://imagedelivery.net`:
the serialized pathname and, when the inputs smuggled a `?` or `#`, the
percent-encoded query and fragment. -/
structure UrlTail where
  pathname : String
  query : Option (List Char)
  fragment : Option (List Char)

/-- The parse of everything after the authority: the fragment then the
query are split off, the path-start slash is consumed, the path is split
into segments, dot segments are resolved, and each part is percent-encoded
with its set. -/
def parseUrlTail (l : List Char) : UrlTail :=
  let hs := splitHash l
  let qs := splitQuery hs.1
  ⟨serializePath (resolveSegments [] (splitSegments (dropLeadSlash qs.1))),
   qs.2.map fun q => q.flatMap (pctEncodeChar inQueryEncodeSet),
   hs.2.map fun f => f.flatMap (pctEncodeChar inFragmentEncodeSet)⟩

/-- A character the URL parser copies verbatim inside a path segment:
printable ASCII outside the path percent-encode set that is not a segment
separator, a delimiter, or `%`. -/
def urlPathSafeChar (c : Char) : Bool :=
  32 < c.toNat && c.toNat < 127 && !(c.toNat = 34) && !(c.toNat = 35) &&
    !(c.toNat = 37) && !(c.toNat = 47) && !(c.toNat = 60) && !(c.toNat = 62) &&
    !(c.toNat = 63) && !(c.toNat = 92) && !(c.toNat = 96) && !(c.toNat = 123) &&
    !(c.toNat = 125)

/-- A path component the parser leaves unchanged: safe characters only, and
not a (percent-encoded) dot segment. -/
def urlPathSafeComponent (s : String) : Bool :=
  s.data.all urlPathSafeChar && !(isSingleDotSeg s.data) && !(isDoubleDotSeg s.data)

end JsWeb

/-!
## `simple-r2-utils`: pre-signed Cloudflare R2 URLs (`src/index.ts`)

The two generators are deterministic string constructions once the call to
`new Date()` is made explicit: each takes the epoch-milliseconds timestamp
`nowMs` as a final argument, exactly where the source reads the clock.
The intermediate `const` bindings of the source are factored into named
definitions so the theorems can speak about them.
-/

namespace R2

open Crypto JsWeb

/-- `getSignatureKey`: the SigV4 HMAC chain deriving the signing key. -/
def getSignatureKey (key dateStamp regionName serviceName : String) : List Nat :=
  let kDate := hmacSha256 (utf8Bytes ("AWS4" ++ key)) (utf8Bytes dateStamp)
  let kRegion := hmacSha256 kDate (utf8Bytes regionName)
  let kService := hmacSha256 kRegion (utf8Bytes serviceName)
  hmacSha256 kService (utf8Bytes "aws4_request")

/-- `buildCanonicalQueryString`: sort entries by key, percent-encode key and
value with `encodeURIComponent`, join as `k=v` with `&`. -/
def buildCanonicalQueryString (params : List (String × String)) : String :=
  String.intercalate "&" ((sortByKey params).map fun kv =>
    encodeURIComponent kv.1 ++ "=" ++ encodeURIComponent kv.2)

/-- The R2 endpoint `https://{bucketName}.{accountId}.r2.cloudflarestorage.com`. -/
def endpoint (bucketName accountId : String) : String :=
  "https://" ++ bucketName ++ "." ++ accountId ++ ".r2.cloudflarestorage.com"

/-- `canonicalUri`: the raw `/${fileName}`, with no encoding applied. -/
def canonicalUri (fileName : String) : String := "/" ++ fileName

/-- The `X-Amz-Credential` value `{accessKeyId}/{dateStamp}/auto/s3/aws4_request`
(region `"auto"`, service `"s3"`). -/
def credentialOf (accessKeyId dateStamp : String) : String :=
  accessKeyId ++ "/" ++ (dateStamp ++ "/" ++ "auto" ++ "/" ++ "s3" ++ "/aws4_request")

/-- The `URLSearchParams` literal of `getPreSignedUploadUrl`, in insertion order. -/
def uploadQueryParams (accessKeyId : String) (expiresIn : Nat)
    (amzDate dateStamp : String) : List (String × String) :=
  [("X-Amz-Algorithm", "AWS4-HMAC-SHA256"),
   ("X-Amz-Credential", credentialOf accessKeyId dateStamp),
   ("X-Amz-Date", amzDate),
   ("X-Amz-Expires", toString expiresIn),
   ("X-Amz-SignedHeaders", "content-type;host"),
   ("X-Amz-Content-Sha256", "UNSIGNED-PAYLOAD"),
   ("x-id", "PutObject")]

/-- The canonical headers of the upload request:
`content-type:{contentType}\nhost:{bucket}.{account}.r2.cloudflarestorage.com\n`. -/
def uploadCanonicalHeaders (contentType bucketName accountId : String) : String :=
  "content-type:" ++ contentType ++ "\nhost:" ++ bucketName ++ "." ++ accountId ++
    ".r2.cloudflarestorage.com\n"

/-- The canonical request of `getPreSignedUploadUrl`: the six components
joined with newlines. -/
def uploadCanonicalRequest (fileName accountId accessKeyId bucketName : String)
    (expiresIn : Nat) (contentType : String) (amzDate : String) : String :=
  String.intercalate "\n"
    ["PUT",
     canonicalUri fileName,
     buildCanonicalQueryString (uploadQueryParams accessKeyId expiresIn amzDate (amzDate.take 8)),
     uploadCanonicalHeaders contentType bucketName accountId,
     "content-type;host",
     "UNSIGNED-PAYLOAD"]

/-- The string-to-sign of `getPreSignedUploadUrl`. -/
def uploadStringToSign (fileName accountId accessKeyId bucketName : String)
    (expiresIn : Nat) (contentType : String) (amzDate : String) : String :=
  String.intercalate "\n"
    ["AWS4-HMAC-SHA256",
     amzDate,
     amzDate.take 8 ++ "/" ++ "auto" ++ "/" ++ "s3" ++ "/aws4_request",
     sha256Hex (uploadCanonicalRequest fileName accountId accessKeyId bucketName
       expiresIn contentType amzDate)]

/-- The `X-Amz-Signature` hex value of `getPreSignedUploadUrl`. -/
def uploadSignature (fileName accountId accessKeyId secretAccessKey bucketName : String)
    (expiresIn : Nat) (contentType : String) (amzDate : String) : String :=
  hmacSha256Hex (getSignatureKey secretAccessKey (amzDate.take 8) "auto" "s3")
    (uploadStringToSign fileName accountId accessKeyId bucketName expiresIn contentType amzDate)

/-- The query parameters of the returned upload URL:
the original parameters with `X-Amz-Signature` set. -/
def uploadFinalParams (fileName accountId accessKeyId secretAccessKey bucketName : String)
    (expiresIn : Nat) (contentType : String) (amzDate : String) : List (String × String) :=
  searchParamsSet (uploadQueryParams accessKeyId expiresIn amzDate (amzDate.take 8))
    "X-Amz-Signature"
    (uploadSignature fileName accountId accessKeyId secretAccessKey bucketName
      expiresIn contentType amzDate)

/-- `getPreSignedUploadUrl`, with the `new Date()` read made explicit as `nowMs`. -/
def getPreSignedUploadUrl (fileName accountId accessKeyId secretAccessKey bucketName : String)
    (expiresIn : Nat) (contentType : String) (nowMs : Nat) : String :=
  let amzDate := amzDateOfMs nowMs
  endpoint bucketName accountId ++ canonicalUri fileName ++ "?" ++
    buildCanonicalQueryString (uploadFinalParams fileName accountId accessKeyId
      secretAccessKey bucketName expiresIn contentType amzDate)

/-- The `URLSearchParams` literal of `getPreSignedDownloadUrl`, in insertion order. -/
def downloadQueryParams (accessKeyId : String) (expiresIn : Nat)
    (amzDate dateStamp : String) : List (String × String) :=
  [("X-Amz-Algorithm", "AWS4-HMAC-SHA256"),
   ("X-Amz-Credential", credentialOf accessKeyId dateStamp),
   ("X-Amz-Date", amzDate),
   ("X-Amz-Expires", toString expiresIn),
   ("X-Amz-SignedHeaders", "host"),
   ("X-Amz-Content-Sha256", "UNSIGNED-PAYLOAD"),
   ("x-id", "GetObject")]

/-- The canonical request of `getPreSignedDownloadUrl` (`GET`, host-only headers). -/
def downloadCanonicalRequest (fileName accountId accessKeyId bucketName : String)
    (expiresIn : Nat) (amzDate : String) : String :=
  String.intercalate "\n"
    ["GET",
     canonicalUri fileName,
     buildCanonicalQueryString (downloadQueryParams accessKeyId expiresIn amzDate (amzDate.take 8)),
     "host:" ++ bucketName ++ "." ++ accountId ++ ".r2.cloudflarestorage.com\n",
     "host",
     "UNSIGNED-PAYLOAD"]

/-- The string-to-sign of `getPreSignedDownloadUrl`. -/
def downloadStringToSign (fileName accountId accessKeyId bucketName : String)
    (expiresIn : Nat) (amzDate : String) : String :=
  String.intercalate "\n"
    ["AWS4-HMAC-SHA256",
     amzDate,
     amzDate.take 8 ++ "/" ++ "auto" ++ "/" ++ "s3" ++ "/aws4_request",
     sha256Hex (downloadCanonicalRequest fileName accountId accessKeyId bucketName
       expiresIn amzDate)]

/-- The `X-Amz-Signature` hex value of `getPreSignedDownloadUrl`. -/
def downloadSignature (fileName accountId accessKeyId secretAccessKey bucketName : String)
    (expiresIn : Nat) (amzDate : String) : String :=
  hmacSha256Hex (getSignatureKey secretAccessKey (amzDate.take 8) "auto" "s3")
    (downloadStringToSign fileName accountId accessKeyId bucketName expiresIn amzDate)

/-- The query parameters of the returned download URL. -/
def downloadFinalParams (fileName accountId accessKeyId secretAccessKey bucketName : String)
    (expiresIn : Nat) (amzDate : String) : List (String × String) :=
  searchParamsSet (downloadQueryParams accessKeyId expiresIn amzDate (amzDate.take 8))
    "X-Amz-Signature"
    (downloadSignature fileName accountId accessKeyId secretAccessKey bucketName expiresIn amzDate)

/-- `getPreSignedDownloadUrl`, with the `new Date()` read made explicit as `nowMs`. -/
def getPreSignedDownloadUrl (fileName accountId accessKeyId secretAccessKey bucketName : String)
    (expiresIn : Nat) (nowMs : Nat) : String :=
  let amzDate := amzDateOfMs nowMs
  endpoint bucketName accountId ++ canonicalUri fileName ++ "?" ++
    buildCanonicalQueryString (downloadFinalParams fileName accountId accessKeyId
      secretAccessKey bucketName expiresIn amzDate)

end R2

/-!
## HTTP effect model

The wrapper functions that call `fetch` are translated as pure functions of
an extra `responder : HttpRequest → HttpResponse` argument (the network),
returning alongside their result the list of HTTP requests the body issues,
one entry per `fetch` call executed.
-/

/-- The body of an HTTP request: absent, a JSON string, or form data. -/
inductive HttpBody
  | none
  | str (s : String)
  | form (fields : List (String × String))
deriving DecidableEq

/-- An HTTP request as `fetch` receives it. -/
structure HttpRequest where
  url : String
  method : String
  headers : List (String × String)
  body : HttpBody
deriving DecidableEq

/-- An HTTP response as the wrappers consume it. `resultToken` is the
`result?.token` field of the parsed JSON body, when present. -/
structure HttpResponse where
  ok : Bool
  status : Nat
  statusText : String
  body : String
  resultToken : Option String

/-- JavaScript `Boolean.prototype.toString`. -/
def jsBoolString (b : Bool) : String := cond b "true" "false"

/-!
## `simple-cf-image-utils` (`src/index.ts`)
-/

namespace CfImage

open Crypto JsWeb

/-- `makeCfImageURL`: one `fetch` of the direct-upload endpoint.  The
`metadata` argument is modelled by its `JSON.stringify` image
`metadataJson`.  Returns the parsed response body on success, the thrown
error message otherwise, with the issued requests. -/
def makeCfImageURL (account_id api_token : String) (metadataJson : String)
    (requireSignedURLs : Bool) (responder : HttpRequest → HttpResponse) :
    Except String String × List HttpRequest :=
  let req : HttpRequest :=
    ⟨"https://api.cloudflare.com/client/v4/accounts/" ++ account_id ++ "/images/v2/direct_upload",
     "POST",
     [("Authorization", "Bearer " ++ api_token)],
     HttpBody.form [("requireSignedURLs", jsBoolString requireSignedURLs),
                    ("metadata", metadataJson)]⟩
  let res := responder req
  if !res.ok then
    (Except.error ("Failed to get CF image URL: " ++ toString res.status ++ " " ++ res.statusText),
     [req])
  else (Except.ok res.body, [req])

/-- The outcome of `new URL("https://imagedelivery.net/{a}/{i}/{v}")`:
scheme and host are fixed safe literals, so the WHATWG parse of the
remainder (`JsWeb.parseUrlTail`) is the whole story. -/
def imageUrlTail (accountHash imageId variant : String) : UrlTail :=
  parseUrlTail ("/" ++ accountHash ++ "/" ++ imageId ++ "/" ++ variant).data

/-- The `exp` timestamp: `Math.floor(Date.now() / 1000) + expiresInSeconds`. -/
def expirationOf (nowMs expiresInSeconds : Nat) : Nat :=
  nowMs / 1000 + expiresInSeconds

/-- The initial `searchParams` of the URL object: the parsed query when the
inputs smuggled a `?`, empty otherwise. -/
def imageBaseParams (accountHash imageId variant : String) : List (String × String) :=
  match (imageUrlTail accountHash imageId variant).query with
  | Option.none => []
  | some q => parseFormQuery q

/-- The `searchParams` after `url.searchParams.set("exp", ...)`. -/
def imageExpParams (accountHash imageId variant : String)
    (nowMs expiresInSeconds : Nat) : List (String × String) :=
  searchParamsSet (imageBaseParams accountHash imageId variant) "exp"
    (toString (expirationOf nowMs expiresInSeconds))

/-- The string the image URL signature covers:
`url.pathname + "?" + url.searchParams.toString()` with `exp` set and
`sig` not yet added. -/
def imageStringToSign (accountHash imageId variant : String)
    (nowMs expiresInSeconds : Nat) : String :=
  (imageUrlTail accountHash imageId variant).pathname ++ "?" ++
    formQueryString (imageExpParams accountHash imageId variant nowMs expiresInSeconds)

/-- The `sig` value: lowercase-hex HMAC-SHA-256 of the string to sign, keyed
by the UTF-8 bytes of the signing key (`bufferToHex` of the Web Crypto MAC). -/
def imageSignature (accountHash imageId variant signingKey : String)
    (nowMs expiresInSeconds : Nat) : String :=
  bytesToHex (hmacSha256 (utf8Bytes signingKey)
    (utf8Bytes (imageStringToSign accountHash imageId variant nowMs expiresInSeconds)))

/-- `getSignedImageUrlUsingID`, with the `Date.now()` read made explicit as
`nowMs`: `url.toString()` after `exp` and then `sig` are set — origin,
serialized pathname, the re-serialized query, and the fragment when the
inputs smuggled a `#`. -/
def getSignedImageUrlUsingID (accountHash imageId variant signingKey : String)
    (expiresInSeconds : Nat) (nowMs : Nat) : String :=
  let tail := imageUrlTail accountHash imageId variant
  "https://imagedelivery.net" ++ tail.pathname ++ "?" ++
    formQueryString
      (searchParamsSet (imageExpParams accountHash imageId variant nowMs expiresInSeconds)
        "sig" (imageSignature accountHash imageId variant signingKey nowMs expiresInSeconds)) ++
    (match tail.fragment with
     | Option.none => ""
     | some f => "#" ++ (⟨f⟩ : String))

/-- The HTTP requests `getSignedImageUrlUsingID` issues: its body calls the
Web Crypto API but never `fetch`. -/
def getSignedImageUrlRequests (_accountHash _imageId _variant _signingKey : String)
    (_expiresInSeconds _nowMs : Nat) : List HttpRequest := []

end CfImage

/-!
## `simple-cf-video-utils` (`src/index.ts`)
-/

namespace CfVideo

open JsWeb

/-- `accessRules[].type`. -/
inductive RuleType
  | any
  | ipSrc
  | ipGeoipCountry

/-- The JSON rendering of a rule type. -/
def ruleTypeStr : RuleType → String
  | .any => "any"
  | .ipSrc => "ip.src"
  | .ipGeoipCountry => "ip.geoip.country"

/-- `accessRules[].action`. -/
inductive RuleAction
  | allow
  | block

/-- The JSON rendering of a rule action. -/
def ruleActionStr : RuleAction → String
  | .allow => "allow"
  | .block => "block"

/-- One entry of `SignedUrlRestrictions.accessRules`. -/
structure AccessRule where
  type : RuleType
  action : RuleAction
  country : Option (List String)
  ip : Option (List String)

/-- The `SignedUrlRestrictions` interface: every field optional. -/
structure SignedUrlRestrictions where
  exp : Option Nat
  nbf : Option Nat
  downloadable : Option Bool
  accessRules : Option (List AccessRule)

/-- A JSON string literal (escaping not modelled; the rendered values here
contain no quotes or backslashes). -/
def jsonStr (s : String) : String := "\"" ++ s ++ "\""

/-- A JSON array of strings. -/
def jsonStrArray (xs : List String) : String :=
  "[" ++ String.intercalate "," (xs.map jsonStr) ++ "]"

/-- `JSON.stringify` of one access rule: present fields in declaration
order, absent (`undefined`) fields skipped. -/
def stringifyRule (r : AccessRule) : String :=
  "\x7b" ++ String.intercalate ","
    ([jsonStr "type" ++ ":" ++ jsonStr (ruleTypeStr r.type),
      jsonStr "action" ++ ":" ++ jsonStr (ruleActionStr r.action)] ++
     (r.country.toList.map fun cs => jsonStr "country" ++ ":" ++ jsonStrArray cs) ++
     (r.ip.toList.map fun ips => jsonStr "ip" ++ ":" ++ jsonStrArray ips)) ++ "\x7d"

/-- `JSON.stringify` of a restrictions object: present fields in declaration
order, absent (`undefined`) fields skipped. -/
def stringifyRestrictions (r : SignedUrlRestrictions) : String :=
  "\x7b" ++ String.intercalate ","
    ((r.exp.toList.map fun e => jsonStr "exp" ++ ":" ++ toString e) ++
     (r.nbf.toList.map fun n => jsonStr "nbf" ++ ":" ++ toString n) ++
     (r.downloadable.toList.map fun b => jsonStr "downloadable" ++ ":" ++ jsBoolString b) ++
     (r.accessRules.toList.map fun rs =>
       jsonStr "accessRules" ++ ":" ++ "[" ++
         String.intercalate "," (rs.map stringifyRule) ++ "]")) ++ "\x7d"

/-- The restrictions object whose serialization is sent:
`restrictions || { exp: Math.floor(Date.now() / 1000) + 3600 }` — the
one-hour default only when the argument is absent. -/
def defaultRestrictions (restrictions : Option SignedUrlRestrictions) (nowMs : Nat) :
    SignedUrlRestrictions :=
  restrictions.getD ⟨some (nowMs / 1000 + 3600), none, none, none⟩

/-- The request body `getRestrictedVideoToken` serializes and sends. -/
def tokenRequestBody (restrictions : Option SignedUrlRestrictions) (nowMs : Nat) : String :=
  stringifyRestrictions (defaultRestrictions restrictions nowMs)

/-- `getRestrictedVideoToken`: one `fetch` of the token endpoint, with the
`Date.now()` read made explicit as `nowMs`. -/
def getRestrictedVideoToken (account_id api_token video_uid : String)
    (restrictions : Option SignedUrlRestrictions) (nowMs : Nat)
    (responder : HttpRequest → HttpResponse) :
    Except String HttpResponse × List HttpRequest :=
  let req : HttpRequest :=
    ⟨"https://api.cloudflare.com/client/v4/accounts/" ++ account_id ++ "/stream/" ++
       video_uid ++ "/token",
     "POST",
     [("Authorization", "Bearer " ++ api_token), ("Content-Type", "application/json")],
     HttpBody.str (tokenRequestBody restrictions nowMs)⟩
  let res := responder req
  if !res.ok then
    (Except.error ("Failed to get CF video token: " ++ toString res.status ++ " " ++ res.statusText),
     [req])
  else (Except.ok res, [req])

/-- The `IframeConfig` interface. -/
structure IframeConfig where
  customer_domain : String
  width : Option Nat
  height : Option Nat
  allowFullscreen : Option Bool
  autoplay : Option Bool
  muted : Option Bool
  controls : Option Bool
  loop : Option Bool
  preload : Option Bool
  primaryColor : Option String
  letterboxColor : Option String
  defaultTextTrack : Option String

/-- A `params.set` guarded by JS truthiness of an optional string
(`if (config.x) params.set(...)`): skipped when absent or empty. -/
def truthyStrParam (k : String) : Option String → List (String × String)
  | Option.none => []
  | some s => if s = "" then [] else [(k, s)]

/-- A `params.set` guarded by `!== undefined` of an optional boolean. -/
def definedBoolParam (k : String) : Option Bool → List (String × String)
  | Option.none => []
  | some b => [(k, jsBoolString b)]

/-- The player query parameters `getRestrictedVideoIframeUrl` builds,
in the order the source sets them. -/
def iframeParams (c : IframeConfig) : List (String × String) :=
  definedBoolParam "autoplay" c.autoplay ++
  definedBoolParam "muted" c.muted ++
  definedBoolParam "controls" c.controls ++
  definedBoolParam "loop" c.loop ++
  definedBoolParam "preload" c.preload ++
  truthyStrParam "primaryColor" c.primaryColor ++
  truthyStrParam "letterboxColor" c.letterboxColor ++
  truthyStrParam "defaultTextTrack" c.defaultTextTrack

/-- `config.width || 1280` and friends: JS `||` with a numeric default,
where `0` is falsy. -/
def jsOrNat (v : Option Nat) (d : Nat) : Nat :=
  match v with
  | Option.none => d
  | some w => if w = 0 then d else w

/-- The value `getRestrictedVideoIframeUrl` resolves with on success. -/
structure IframeResult where
  url : String
  token : String
  src : String
  width : Nat
  height : Nat
  allowFullscreen : Bool

/-- `getRestrictedVideoIframeUrl`: obtains a token via
`getRestrictedVideoToken` (its only `fetch`), then builds the iframe URL. -/
def getRestrictedVideoIframeUrl (account_id api_token video_uid : String)
    (config : IframeConfig) (restrictions : Option SignedUrlRestrictions)
    (nowMs : Nat) (responder : HttpRequest → HttpResponse) :
    Except String IframeResult × List HttpRequest :=
  let tokenResponse :=
    getRestrictedVideoToken account_id api_token video_uid restrictions nowMs responder
  match tokenResponse.1 with
  | Except.error e => (Except.error e, tokenResponse.2)
  | Except.ok res =>
    match res.resultToken with
    | Option.none => (Except.error "Failed to get signed token from response", tokenResponse.2)
    | some token =>
      let queryString := formQueryString (iframeParams config)
      let baseUrl := "https://" ++ config.customer_domain ++ "/" ++ token ++ "/iframe"
      let fullUrl := if queryString = "" then baseUrl else baseUrl ++ "?" ++ queryString
      (Except.ok ⟨fullUrl, token, fullUrl, jsOrNat config.width 1280,
                  jsOrNat config.height 720, config.allowFullscreen ≠ some false⟩,
       tokenResponse.2)

end CfVideo

/-!
## `react-hooks/use-network-status` (`src/index.ts`)

The hook is a transition system: the state is the returned boolean,
initialized from `navigator.onLine`; each `online` / `offline` browser
event is a step.  The effect's listener registration and its cleanup are
modelled on an explicit listener registry, with the two handler closures
identified by tokens.
-/

namespace Hooks

/-- A browser connectivity event. -/
inductive NetEvent
  | online
  | offline
deriving DecidableEq

/-- One event handled: `handleConnect` sets `true`, `handleDisconnect` sets
`false`, regardless of the previous state. -/
def networkStep (_s : Bool) : NetEvent → Bool
  | .online => true
  | .offline => false

/-- The hook's returned boolean after a mount with initial value
`navigator.onLine = initial` and the given event history. -/
def useNetworkStatusValue (initial : Bool) (events : List NetEvent) : Bool :=
  events.foldl networkStep initial

/-- A registered event listener: event name plus the identity of the
handler closure. -/
structure Listener where
  event : String
  handler : Nat
deriving DecidableEq

/-- The effect body: `addEventListener('online', handleConnect)` then
`addEventListener('offline', handleDisconnect)`. -/
def mountNetwork (reg : List Listener) (hOn hOff : Nat) : List Listener :=
  (reg ++ [⟨"online", hOn⟩]) ++ [⟨"offline", hOff⟩]

/-- The effect's cleanup: `removeEventListener` for both handlers. -/
def unmountNetwork (reg : List Listener) (hOn hOff : Nat) : List Listener :=
  (reg.erase ⟨"online", hOn⟩).erase ⟨"offline", hOff⟩

/-!
## `react-hooks/use-fetch` (`src/index.ts`, the `useFetch` with
`revalidateInterval`/`once`, whose `execute` is at lines 274–342)

`execute` is modelled as a transition on the hook's state, parameterized by
the outcome the awaited `fetch`/parse/transform pipeline produces.
-/

/-- The hook state `execute` manipulates: the three `useState` cells and
the `hasFetchedRef` ref. -/
structure FetchState (T : Type) where
  data : Option T
  error : Option String
  loading : Bool
  hasFetched : Bool
deriving DecidableEq

/-- The outcome of the awaited request pipeline: a parsed-and-transformed
value on an `ok` response, the not-`ok` status otherwise, or a rejection
(network failure, parse failure, `transform` throw) with its message. -/
inductive FetchOutcome (T : Type)
  | success (v : T)
  | httpError (status : Nat) (statusText : String)
  | reject (message : String)

/-- One run of `execute`: the empty-`url` guard and the `once` guard leave
the state unchanged; otherwise `loading` is set and `error` cleared, the
outcome is handled (`setData` on success, `setError` on either failure),
and the `finally` clears `loading`. -/
def executeStep {T : Type} (url : String) (once : Bool)
    (s : FetchState T) (outcome : FetchOutcome T) : FetchState T :=
  if url = "" then s
  else if once && s.hasFetched then s
  else
    match outcome with
    | .success v => ⟨some v, none, false, true⟩
    | .httpError status statusText =>
      ⟨s.data, some ("HTTP Error: " ++ toString status ++ " " ++ statusText), false, s.hasFetched⟩
    | .reject message => ⟨s.data, some message, false, s.hasFetched⟩

end Hooks

namespace R2

/-- The HTTP requests `getPreSignedUploadUrl` issues: its body is string
and HMAC construction only, with no `fetch` call. -/
def uploadHttpRequests (_fileName _accountId _accessKeyId _secretAccessKey _bucketName : String)
    (_expiresIn : Nat) (_contentType : String) (_nowMs : Nat) : List HttpRequest := []

/-- The HTTP requests `getPreSignedDownloadUrl` issues: none, likewise. -/
def downloadHttpRequests (_fileName _accountId _accessKeyId _secretAccessKey _bucketName : String)
    (_expiresIn : Nat) (_nowMs : Nat) : List HttpRequest := []

end R2

namespace R2

/-- The `X-Amz-Signature` value as the specification's words describe the
SigV4 procedure, stated independently of the source's factoring: join the
six canonical-request components with newlines; form the string-to-sign
from the algorithm name, the timestamp, the credential scope
`{dateStamp}/auto/s3/aws4_request` and the hex SHA-256 of the canonical
request; derive the signing key by the HMAC-SHA-256 chain keyed first with
`"AWS4" + secretAccessKey` over `dateStamp`, then over `"auto"`, `"s3"`,
`"aws4_request"`; output the lowercase-hex HMAC-SHA-256 of the
string-to-sign under that key. -/
def sigV4SpecSignature (fileName contentType bucketName accountId secretAccessKey : String)
    (sortedEncodedQuery amzDate dateStamp : String) : String :=
  let canonicalRequest := String.intercalate "\n"
    ["PUT",
     "/" ++ fileName,
     sortedEncodedQuery,
     "content-type:" ++ contentType ++ "\nhost:" ++ bucketName ++ "." ++ accountId ++
       ".r2.cloudflarestorage.com\n",
     "content-type;host",
     "UNSIGNED-PAYLOAD"]
  let stringToSign := String.intercalate "\n"
    ["AWS4-HMAC-SHA256",
     amzDate,
     dateStamp ++ "/auto/s3/aws4_request",
     Crypto.sha256Hex canonicalRequest]
  let kDate := Crypto.hmacSha256 (Crypto.utf8Bytes ("AWS4" ++ secretAccessKey))
    (Crypto.utf8Bytes dateStamp)
  let kRegion := Crypto.hmacSha256 kDate (Crypto.utf8Bytes "auto")
  let kService := Crypto.hmacSha256 kRegion (Crypto.utf8Bytes "s3")
  let signingKey := Crypto.hmacSha256 kService (Crypto.utf8Bytes "aws4_request")
  Crypto.bytesToHex (Crypto.hmacSha256 signingKey (Crypto.utf8Bytes stringToSign))

end R2

/-!
## Validation of the external-primitive models

Known-answer tests for the SHA-256 / HMAC-SHA-256 embedding (FIPS 180-4
and the classic RFC 2104 test vector) and for the `Date` model.
-/

theorem sha256_kat_abc : Crypto.sha256Hex "abc" =
    "ba7816bf8f01cfea414140de5dae2223b00361a396177a9cb410ff61f20015ad" := by decide

theorem sha256_kat_empty : Crypto.sha256Hex "" =
    "e3b0c44298fc1c149afbf4c8996fb92427ae41e4649b934ca495991b7852b855" := by decide

theorem hmac_kat_fox :
    Crypto.hmacSha256Hex (Crypto.utf8Bytes "key") "The quick brown fox jumps over the lazy dog" =
      "f7bc83f430538424b13298e6aa6fb143ef4d59a14946175997479dbc2d1a3cd8" := by decide

theorem toISOString_epoch : JsWeb.toISOString 0 = "1970-01-01T00:00:00.000Z" := by decide

theorem toISOString_recent : JsWeb.toISOString 1700000000000 = "2023-11-14T22:13:20.000Z" := by
  decide

theorem amzDate_recent : JsWeb.amzDateOfMs 1700000000000 = "20231114T221320Z" := by decide

/-!
## Supporting lemmas
-/

/-- `Nat.digitChar` of a value below ten is a decimal digit. -/
theorem digitChar_isDigit {m : Nat} (h : m < 10) : (Nat.digitChar m).isDigit = true := by
  interval_cases m <;> decide

/-- Every character `Nat.toDigitsCore` emits over base ten is a digit. -/
theorem toDigitsCore_isDigit (fuel : Nat) :
    ∀ (n : Nat) (acc : List Char), (∀ c ∈ acc, c.isDigit = true) →
      ∀ c ∈ Nat.toDigitsCore 10 fuel n acc, c.isDigit = true := by
  induction fuel with
  | zero => intro n acc hacc; simpa [Nat.toDigitsCore] using hacc
  | succ fuel ih =>
    intro n acc hacc c hc
    simp only [Nat.toDigitsCore] at hc
    have hd : ∀ c ∈ Nat.digitChar (n % 10) :: acc, c.isDigit = true := by
      intro c hc
      rcases List.mem_cons.mp hc with rfl | hmem
      · exact digitChar_isDigit (Nat.mod_lt _ (by decide))
      · exact hacc c hmem
    by_cases hz : n / 10 = 0
    · simp only [hz, if_pos rfl] at hc
      exact hd c hc
    · simp only [if_neg hz] at hc
      exact ih (n / 10) _ hd c hc

/-- Every character of the decimal rendering of a natural is a digit. -/
theorem natToString_isDigit (n : Nat) : ∀ c ∈ (toString n).data, c.isDigit = true := by
  intro c hc
  have : c ∈ Nat.toDigitsCore 10 (n + 1) n [] := by
    simpa [toString, Nat.repr, Nat.toDigits, List.asString] using hc
  exact toDigitsCore_isDigit (n + 1) n [] (by simp) c this

/-- Digits are safe under form-urlencoded serialization. -/
theorem isFormSafe_of_isDigit {c : Char} (h : c.isDigit = true) :
    JsWeb.isFormSafe c = true := by
  simp [JsWeb.isFormSafe, Char.isAlphanum, h]

/-- A form-safe character serializes to itself. -/
theorem formEncodeChar_of_safe {c : Char} (h : JsWeb.isFormSafe c = true) :
    JsWeb.formEncodeChar c = [c] := by
  simp [JsWeb.formEncodeChar, h]

/-- Form-urlencoding a list of form-safe characters is the identity. -/
theorem flatMap_formEncodeChar_eq (l : List Char) (h : ∀ c ∈ l, JsWeb.isFormSafe c = true) :
    l.flatMap JsWeb.formEncodeChar = l := by
  induction l with
  | nil => rfl
  | cons c cs ih =>
    simp only [List.flatMap_cons, formEncodeChar_of_safe (h c (List.mem_cons_self _ _)),
      List.singleton_append]
    exact congrArg (c :: ·) (ih fun x hx => h x (List.mem_cons_of_mem _ hx))

/-- A string of form-safe characters is fixed by form-urlencoding. -/
theorem formEncode_eq_self {s : String} (h : ∀ c ∈ s.data, JsWeb.isFormSafe c = true) :
    JsWeb.formEncode s = s := by
  cases s with
  | mk l => exact congrArg String.mk (flatMap_formEncodeChar_eq l h)

/-- The decimal rendering of a natural is fixed by form-urlencoding. -/
theorem formEncode_natToString (n : Nat) :
    JsWeb.formEncode (toString n) = toString n :=
  formEncode_eq_self fun c hc => isFormSafe_of_isDigit (natToString_isDigit n c hc)

/-- Lowercase hex digits are form-safe. -/
theorem hexDigit_isFormSafe {m : Nat} (h : m < 16) :
    JsWeb.isFormSafe (Crypto.hexDigit m) = true := by
  interval_cases m <;> decide

/-- Every character of a lowercase-hex byte rendering is form-safe. -/
theorem bytesToHex_isFormSafe (bs : List Nat) :
    ∀ c ∈ (Crypto.bytesToHex bs).data, JsWeb.isFormSafe c = true := by
  intro c hc
  simp only [Crypto.bytesToHex, List.mem_flatMap] at hc
  obtain ⟨b, _, hb⟩ := hc
  simp only [Crypto.byteHex, List.mem_cons, List.not_mem_nil, or_false] at hb
  rcases hb with rfl | rfl
  · exact hexDigit_isFormSafe (Nat.mod_lt _ (by decide))
  · exact hexDigit_isFormSafe (Nat.mod_lt _ (by decide))

/-- A lowercase-hex string is fixed by form-urlencoding. -/
theorem formEncode_bytesToHex (bs : List Nat) :
    JsWeb.formEncode (Crypto.bytesToHex bs) = Crypto.bytesToHex bs :=
  formEncode_eq_self (bytesToHex_isFormSafe bs)

/-- The request list of `getRestrictedVideoToken` is exactly one POST of the
token endpoint carrying the serialized restrictions, on both branches. -/
theorem tokenRequests_eq (account_id api_token video_uid : String)
    (r : Option CfVideo.SignedUrlRestrictions) (nowMs : Nat)
    (responder : HttpRequest → HttpResponse) :
    (CfVideo.getRestrictedVideoToken account_id api_token video_uid r nowMs responder).2 =
      [⟨"https://api.cloudflare.com/client/v4/accounts/" ++ account_id ++ "/stream/" ++
          video_uid ++ "/token", "POST",
        [("Authorization", "Bearer " ++ api_token), ("Content-Type", "application/json")],
        HttpBody.str (CfVideo.tokenRequestBody r nowMs)⟩] := by
  simp only [CfVideo.getRestrictedVideoToken]
  split <;> rfl

/-- The request list of `makeCfImageURL` is one POST of the direct-upload
endpoint, on both branches. -/
theorem imageRequests_eq (account_id api_token metadataJson : String)
    (requireSignedURLs : Bool) (responder : HttpRequest → HttpResponse) :
    (CfImage.makeCfImageURL account_id api_token metadataJson requireSignedURLs responder).2 =
      [⟨"https://api.cloudflare.com/client/v4/accounts/" ++ account_id ++ "/images/v2/direct_upload",
        "POST", [("Authorization", "Bearer " ++ api_token)],
        HttpBody.form [("requireSignedURLs", jsBoolString requireSignedURLs),
                       ("metadata", metadataJson)]⟩] := by
  simp only [CfImage.makeCfImageURL]
  split <;> rfl

/-- `getRestrictedVideoIframeUrl` issues exactly the requests of its inner
`getRestrictedVideoToken` call, on all branches. -/
theorem iframeRequests_eq (account_id api_token video_uid : String)
    (config : CfVideo.IframeConfig) (r : Option CfVideo.SignedUrlRestrictions)
    (nowMs : Nat) (responder : HttpRequest → HttpResponse) :
    (CfVideo.getRestrictedVideoIframeUrl account_id api_token video_uid config r
        nowMs responder).2 =
      (CfVideo.getRestrictedVideoToken account_id api_token video_uid r nowMs responder).2 := by
  simp only [CfVideo.getRestrictedVideoIframeUrl]
  split
  · rfl
  · split <;> rfl

/-- `stringifyRestrictions` of an exp-only object is the singleton JSON object. -/
theorem stringifyRestrictions_exp (e : Nat) :
    CfVideo.stringifyRestrictions ⟨some e, none, none, none⟩ =
      "\x7b\"exp\":" ++ toString e ++ "\x7d" := by
  simp only [CfVideo.stringifyRestrictions, CfVideo.jsonStr, Option.toList, List.map,
    List.append_nil, List.nil_append, String.intercalate, String.intercalate.go,
    String.append_assoc]
  rfl

/-!
## Claims
-/

/-- C7: the `useNetworkStatus` hook's boolean starts at `navigator.onLine`,
is `true` after any history ending in an `online` event, `false` after any
history ending in an `offline` event, and the effect cleanup removes
exactly the two listeners the mount added. -/
theorem c7_network_status (initial : Bool) (events : List Hooks.NetEvent)
    (reg : List Hooks.Listener) (hOn hOff : Nat) :
    Hooks.useNetworkStatusValue initial [] = initial ∧
    Hooks.useNetworkStatusValue initial (events ++ [Hooks.NetEvent.online]) = true ∧
    Hooks.useNetworkStatusValue initial (events ++ [Hooks.NetEvent.offline]) = false ∧
    (Hooks.Listener.mk "online" hOn ∉ reg → Hooks.Listener.mk "offline" hOff ∉ reg →
      Hooks.unmountNetwork (Hooks.mountNetwork reg hOn hOff) hOn hOff = reg) := by
  refine ⟨rfl, ?_, ?_, ?_⟩
  · simp [Hooks.useNetworkStatusValue, Hooks.networkStep]
  · simp [Hooks.useNetworkStatusValue, Hooks.networkStep]
  · intro h1 h2
    simp only [Hooks.mountNetwork, Hooks.unmountNetwork, List.append_assoc,
      List.singleton_append]
    rw [List.erase_append_right _ h1, List.erase_cons_head,
      List.erase_append_right _ h2, List.erase_cons_head, List.append_nil]

/-- Witness for C7 at a concrete mount: fresh handlers on an empty registry
are removed exactly by the cleanup. -/
theorem c7_network_status_witness :
    Hooks.useNetworkStatusValue true ([Hooks.NetEvent.online] ++ [Hooks.NetEvent.offline]) =
      false ∧
    Hooks.unmountNetwork (Hooks.mountNetwork [] 0 1) 0 1 = [] :=
  ⟨(c7_network_status true [Hooks.NetEvent.online] [] 0 1).2.2.1,
   (c7_network_status true [Hooks.NetEvent.online] [] 0 1).2.2.2 (by decide) (by decide)⟩

/-- C9: in `useFetch`'s `execute`, a failed request (HTTP error status or a
rejection) leaves `data` untouched, sets `error` to the corresponding
message and ends with `loading = false`; success stores the value and ends
with `error = none`. -/
theorem c9_use_fetch {T : Type} (url : String) (once : Bool) (s : Hooks.FetchState T)
    (status : Nat) (statusText message : String) (v : T)
    (hurl : ¬ url = "") (hskip : ¬ (once && s.hasFetched) = true) :
    ((Hooks.executeStep url once s (Hooks.FetchOutcome.httpError status statusText)).data =
        s.data ∧
      (Hooks.executeStep url once s (Hooks.FetchOutcome.httpError status statusText)).error =
        some ("HTTP Error: " ++ toString status ++ " " ++ statusText) ∧
      (Hooks.executeStep url once s (Hooks.FetchOutcome.httpError status statusText)).loading =
        false) ∧
    ((Hooks.executeStep url once s (Hooks.FetchOutcome.reject message)).data = s.data ∧
      (Hooks.executeStep url once s (Hooks.FetchOutcome.reject message)).error = some message ∧
      (Hooks.executeStep url once s (Hooks.FetchOutcome.reject message)).loading = false) ∧
    ((Hooks.executeStep url once s (Hooks.FetchOutcome.success v)).data = some v ∧
      (Hooks.executeStep url once s (Hooks.FetchOutcome.success v)).error = none) := by
  simp [Hooks.executeStep, hurl, hskip]

/-- Witness for C9: a concrete failing request keeps the previously
fetched value. -/
theorem c9_use_fetch_witness :
    ((Hooks.executeStep "https://api/x" false
        (⟨some 7, none, true, true⟩ : Hooks.FetchState Nat)
        (Hooks.FetchOutcome.httpError 500 "Internal Server Error")).data = some 7 ∧
      (Hooks.executeStep "https://api/x" false
        (⟨some 7, none, true, true⟩ : Hooks.FetchState Nat)
        (Hooks.FetchOutcome.httpError 500 "Internal Server Error")).error =
        some ("HTTP Error: " ++ toString 500 ++ " " ++ "Internal Server Error") ∧
      (Hooks.executeStep "https://api/x" false
        (⟨some 7, none, true, true⟩ : Hooks.FetchState Nat)
        (Hooks.FetchOutcome.httpError 500 "Internal Server Error")).loading = false) ∧
    ((Hooks.executeStep "https://api/x" false
        (⟨some 7, none, true, true⟩ : Hooks.FetchState Nat)
        (Hooks.FetchOutcome.reject "network down")).data = some 7 ∧
      (Hooks.executeStep "https://api/x" false
        (⟨some 7, none, true, true⟩ : Hooks.FetchState Nat)
        (Hooks.FetchOutcome.reject "network down")).error = some "network down" ∧
      (Hooks.executeStep "https://api/x" false
        (⟨some 7, none, true, true⟩ : Hooks.FetchState Nat)
        (Hooks.FetchOutcome.reject "network down")).loading = false) ∧
    ((Hooks.executeStep "https://api/x" false
        (⟨some 7, none, true, true⟩ : Hooks.FetchState Nat)
        (Hooks.FetchOutcome.success 9)).data = some 9 ∧
      (Hooks.executeStep "https://api/x" false
        (⟨some 7, none, true, true⟩ : Hooks.FetchState Nat)
        (Hooks.FetchOutcome.success 9)).error = none) :=
  c9_use_fetch "https://api/x" false ⟨some 7, none, true, true⟩ 500
    "Internal Server Error" "network down" 9 (by decide) (by decide)

/-- C8: `getRestrictedVideoToken` sends the one-hour default expiration
`{"exp": now + 3600}` exactly when the `restrictions` argument is absent;
a caller-passed object is serialized verbatim, and the empty object
serializes to `{}`, with no expiration field. -/
theorem c8_token_default (nowMs : Nat) (r : CfVideo.SignedUrlRestrictions)
    (account_id api_token video_uid : String)
    (oR : Option CfVideo.SignedUrlRestrictions)
    (responder : HttpRequest → HttpResponse) :
    CfVideo.tokenRequestBody none nowMs =
      "\x7b\"exp\":" ++ toString (nowMs / 1000 + 3600) ++ "\x7d" ∧
    CfVideo.tokenRequestBody (some r) nowMs = CfVideo.stringifyRestrictions r ∧
    CfVideo.tokenRequestBody (some ⟨none, none, none, none⟩) nowMs = "\x7b\x7d" ∧
    (CfVideo.getRestrictedVideoToken account_id api_token video_uid oR nowMs responder).2 =
      [⟨"https://api.cloudflare.com/client/v4/accounts/" ++ account_id ++ "/stream/" ++
          video_uid ++ "/token", "POST",
        [("Authorization", "Bearer " ++ api_token), ("Content-Type", "application/json")],
        HttpBody.str (CfVideo.tokenRequestBody oR nowMs)⟩] := by
  refine ⟨?_, rfl, rfl, tokenRequests_eq account_id api_token video_uid oR nowMs responder⟩
  show CfVideo.stringifyRestrictions ⟨some (nowMs / 1000 + 3600), none, none, none⟩ = _
  exact stringifyRestrictions_exp (nowMs / 1000 + 3600)

/-- C4 counterexample: `getPreSignedUploadUrl` issues no HTTP request at
all — its body is pure string and HMAC construction — so it does not issue
exactly one. -/
theorem c4_counterexample :
    (R2.uploadHttpRequests "file.txt" "acc" "AKID" "SECRET" "bucket" 3600
        "text/plain" 0).length ≠ 1 := by decide

/-- C4 amended: the two R2 generators and `getSignedImageUrlUsingID` issue
no HTTP request; `makeCfImageURL`, `getRestrictedVideoToken` and
`getRestrictedVideoIframeUrl` issue exactly one per invocation. -/
theorem c4_amended (fileName accountId accessKeyId secretAccessKey bucketName : String)
    (expiresIn : Nat) (contentType : String) (nowMs : Nat)
    (accountHash imageId variant signingKey : String) (expiresInSeconds : Nat)
    (account_id api_token metadataJson video_uid : String) (requireSignedURLs : Bool)
    (config : CfVideo.IframeConfig) (r : Option CfVideo.SignedUrlRestrictions)
    (responder : HttpRequest → HttpResponse) :
    R2.uploadHttpRequests fileName accountId accessKeyId secretAccessKey bucketName
        expiresIn contentType nowMs = [] ∧
    R2.downloadHttpRequests fileName accountId accessKeyId secretAccessKey bucketName
        expiresIn nowMs = [] ∧
    CfImage.getSignedImageUrlRequests accountHash imageId variant signingKey
        expiresInSeconds nowMs = [] ∧
    (CfImage.makeCfImageURL account_id api_token metadataJson requireSignedURLs
        responder).2.length = 1 ∧
    (CfVideo.getRestrictedVideoToken account_id api_token video_uid r nowMs
        responder).2.length = 1 ∧
    (CfVideo.getRestrictedVideoIframeUrl account_id api_token video_uid config r nowMs
        responder).2.length = 1 := by
  refine ⟨rfl, rfl, rfl, ?_, ?_, ?_⟩
  · rw [imageRequests_eq]; rfl
  · rw [tokenRequests_eq]; rfl
  · rw [iframeRequests_eq, tokenRequests_eq]; rfl

/-- A path-safe character is not percent-encoded in a path segment. -/
theorem urlPathSafeChar_notInPathSet {c : Char} (h : JsWeb.urlPathSafeChar c = true) :
    JsWeb.inPathEncodeSet c = false := by
  simp only [JsWeb.urlPathSafeChar, Bool.and_eq_true, decide_eq_true_eq, Bool.not_eq_true',
    decide_eq_false_iff_not] at h
  simp only [JsWeb.inPathEncodeSet, Bool.or_eq_false_iff, decide_eq_false_iff_not]
  omega

/-- A path-safe character is none of the parser's special characters. -/
theorem urlPathSafeChar_ne {c : Char} (h : JsWeb.urlPathSafeChar c = true) :
    ¬ c = '#' ∧ ¬ c = '?' ∧ ¬ c = '/' ∧ ¬ c = '\\' := by
  refine ⟨fun he => ?_, fun he => ?_, fun he => ?_, fun he => ?_⟩ <;>
    (subst he; exact absurd h (by decide))

/-- `splitHash` is the identity pair on hash-free input. -/
theorem splitHash_no_hash {l : List Char} (h : ∀ c ∈ l, ¬ c = '#') :
    JsWeb.splitHash l = (l, none) := by
  induction l with
  | nil => rfl
  | cons c rest ih =>
    simp only [JsWeb.splitHash, if_neg (h c (List.mem_cons_self _ _)),
      ih fun x hx => h x (List.mem_cons_of_mem _ hx)]

/-- `splitQuery` is the identity pair on query-free input. -/
theorem splitQuery_no_query {l : List Char} (h : ∀ c ∈ l, ¬ c = '?') :
    JsWeb.splitQuery l = (l, none) := by
  induction l with
  | nil => rfl
  | cons c rest ih =>
    simp only [JsWeb.splitQuery, if_neg (h c (List.mem_cons_self _ _)),
      ih fun x hx => h x (List.mem_cons_of_mem _ hx)]

/-- A separator-free prefix becomes one segment before the rest. -/
theorem splitSegments_append {l1 l2 : List Char}
    (h : ∀ c ∈ l1, ¬ c = '/' ∧ ¬ c = '\\') :
    JsWeb.splitSegments (l1 ++ '/' :: l2) = l1 :: JsWeb.splitSegments l2 := by
  induction l1 with
  | nil => simp [JsWeb.splitSegments]
  | cons c rest ih =>
    have hc := h c (List.mem_cons_self _ _)
    have ih' := ih fun x hx => h x (List.mem_cons_of_mem _ hx)
    simp only [List.cons_append, JsWeb.splitSegments, if_neg (not_or.mpr ⟨hc.1, hc.2⟩)]
    rw [show JsWeb.splitSegments (rest.append ('/' :: l2)) =
        rest :: JsWeb.splitSegments l2 from ih']

/-- A separator-free list is a single segment. -/
theorem splitSegments_no_slash {l : List Char} (h : ∀ c ∈ l, ¬ c = '/' ∧ ¬ c = '\\') :
    JsWeb.splitSegments l = [l] := by
  induction l with
  | nil => rfl
  | cons c rest ih =>
    have hc := h c (List.mem_cons_self _ _)
    simp only [JsWeb.splitSegments, if_neg (not_or.mpr ⟨hc.1, hc.2⟩),
      ih fun x hx => h x (List.mem_cons_of_mem _ hx)]

/-- Path-encoding a list of path-safe characters is the identity. -/
theorem pathEncode_of_safe {l : List Char} (h : ∀ c ∈ l, JsWeb.urlPathSafeChar c = true) :
    l.flatMap (JsWeb.pctEncodeChar JsWeb.inPathEncodeSet) = l := by
  induction l with
  | nil => rfl
  | cons c rest ih =>
    simp only [List.flatMap_cons, JsWeb.pctEncodeChar,
      urlPathSafeChar_notInPathSet (h c (List.mem_cons_self _ _)), Bool.false_eq_true,
      if_false, List.singleton_append]
    exact congrArg (c :: ·) (ih fun x hx => h x (List.mem_cons_of_mem _ hx))

/-- On components the parser leaves unchanged, `new URL`'s parse of
`/{a}/{i}/{v}` yields exactly the literal pathname, no query and no
fragment. -/
theorem imageUrlTail_of_safe (a i v : String)
    (ha : JsWeb.urlPathSafeComponent a = true)
    (hi : JsWeb.urlPathSafeComponent i = true)
    (hv : JsWeb.urlPathSafeComponent v = true) :
    CfImage.imageUrlTail a i v = ⟨"/" ++ a ++ "/" ++ i ++ "/" ++ v, none, none⟩ := by
  simp only [JsWeb.urlPathSafeComponent, Bool.and_eq_true, Bool.not_eq_true',
    List.all_eq_true] at ha hi hv
  obtain ⟨⟨hac, had1⟩, had2⟩ := ha
  obtain ⟨⟨hic, hid1⟩, hid2⟩ := hi
  obtain ⟨⟨hvc, hvd1⟩, hvd2⟩ := hv
  have hdata : ("/" ++ a ++ "/" ++ i ++ "/" ++ v).data =
      '/' :: (a.data ++ '/' :: (i.data ++ '/' :: v.data)) := by
    simp [List.append_assoc]
  have hmem : ∀ c ∈ '/' :: (a.data ++ '/' :: (i.data ++ '/' :: v.data)),
      c = '/' ∨ JsWeb.urlPathSafeChar c = true := by
    intro c hc
    rcases List.mem_cons.mp hc with rfl | hc
    · exact Or.inl rfl
    rcases List.mem_append.mp hc with hc | hc
    · exact Or.inr (hac c hc)
    rcases List.mem_cons.mp hc with rfl | hc
    · exact Or.inl rfl
    rcases List.mem_append.mp hc with hc | hc
    · exact Or.inr (hic c hc)
    rcases List.mem_cons.mp hc with rfl | hc
    · exact Or.inl rfl
    · exact Or.inr (hvc c hc)
  have hnohash : ∀ c ∈ '/' :: (a.data ++ '/' :: (i.data ++ '/' :: v.data)), ¬ c = '#' := by
    intro c hc
    rcases hmem c hc with rfl | hs
    · decide
    · exact (urlPathSafeChar_ne hs).1
  have hnoq : ∀ c ∈ '/' :: (a.data ++ '/' :: (i.data ++ '/' :: v.data)), ¬ c = '?' := by
    intro c hc
    rcases hmem c hc with rfl | hs
    · decide
    · exact (urlPathSafeChar_ne hs).2.1
  have hsegs : JsWeb.splitSegments (a.data ++ '/' :: (i.data ++ '/' :: v.data)) =
      [a.data, i.data, v.data] := by
    rw [splitSegments_append fun c hc =>
        ⟨(urlPathSafeChar_ne (hac c hc)).2.2.1, (urlPathSafeChar_ne (hac c hc)).2.2.2⟩,
      splitSegments_append fun c hc =>
        ⟨(urlPathSafeChar_ne (hic c hc)).2.2.1, (urlPathSafeChar_ne (hic c hc)).2.2.2⟩,
      splitSegments_no_slash fun c hc =>
        ⟨(urlPathSafeChar_ne (hvc c hc)).2.2.1, (urlPathSafeChar_ne (hvc c hc)).2.2.2⟩]
  have hresolve : JsWeb.resolveSegments [] [a.data, i.data, v.data] =
      [a.data, i.data, v.data] := by
    simp [JsWeb.resolveSegments, had1, had2, hid1, hid2, hvd1, hvd2]
  have hser : JsWeb.serializePath [a.data, i.data, v.data] =
      "/" ++ a ++ "/" ++ i ++ "/" ++ v := by
    simp only [JsWeb.serializePath, List.map, pathEncode_of_safe hac,
      pathEncode_of_safe hic, pathEncode_of_safe hvc]
    refine congrArg String.mk ?_
    simp [List.append_assoc]
  simp only [CfImage.imageUrlTail, JsWeb.parseUrlTail, hdata,
    splitHash_no_hash hnohash, splitQuery_no_query hnoq, JsWeb.dropLeadSlash, hsegs,
    hresolve, hser, Option.map_none']

/-- C2 counterexample: for a variant containing a space, the returned URL
is not the claimed raw template — the parser percent-encodes the path, so
the original universally quantified claim fails. -/
theorem c2_counterexample :
    CfImage.getSignedImageUrlUsingID "ah" "img" "my pic" "key" 60 0 ≠
      "https://imagedelivery.net" ++ ("/" ++ "ah" ++ "/" ++ "img" ++ "/" ++ "my pic") ++
        "?" ++ ("exp" ++ "=" ++ toString (0 / 1000 + 60)) ++ "&" ++
        ("sig" ++ "=" ++ Crypto.bytesToHex (Crypto.hmacSha256 (Crypto.utf8Bytes "key")
          (Crypto.utf8Bytes (("/" ++ "ah" ++ "/" ++ "img" ++ "/" ++ "my pic") ++ "?" ++
            ("exp" ++ "=" ++ toString (0 / 1000 + 60)))))) := by decide

/-- C2 amended: for components the URL parser copies verbatim — printable
ASCII path characters outside the percent-encode set, no separators,
delimiters or `%`, and not dot segments — `getSignedImageUrlUsingID`
returns `https://imagedelivery.net/{a}/{i}/{v}?exp=E&sig=S` with `E` the
current Unix seconds plus `expiresInSeconds` and `S` the lowercase-hex
HMAC-SHA-256, keyed by the UTF-8 signing key, of `pathname + "?" + query`
as it stands before `sig` is added. -/
theorem c2_amended (accountHash imageId variant signingKey : String)
    (expiresInSeconds nowMs : Nat)
    (ha : JsWeb.urlPathSafeComponent accountHash = true)
    (hi : JsWeb.urlPathSafeComponent imageId = true)
    (hv : JsWeb.urlPathSafeComponent variant = true) :
    CfImage.getSignedImageUrlUsingID accountHash imageId variant signingKey
        expiresInSeconds nowMs =
      "https://imagedelivery.net" ++ ("/" ++ accountHash ++ "/" ++ imageId ++ "/" ++ variant) ++
        "?" ++ ("exp" ++ "=" ++ toString (nowMs / 1000 + expiresInSeconds)) ++ "&" ++
        ("sig" ++ "=" ++ Crypto.bytesToHex (Crypto.hmacSha256 (Crypto.utf8Bytes signingKey)
          (Crypto.utf8Bytes (("/" ++ accountHash ++ "/" ++ imageId ++ "/" ++ variant) ++ "?" ++
            ("exp" ++ "=" ++ toString (nowMs / 1000 + expiresInSeconds)))))) := by
  have htail := imageUrlTail_of_safe accountHash imageId variant ha hi hv
  have hexp : JsWeb.formEncode "exp" = "exp" := by decide
  have hsig : JsWeb.formEncode "sig" = "sig" := by decide
  simp only [CfImage.getSignedImageUrlUsingID, CfImage.imageSignature,
    CfImage.imageStringToSign, CfImage.imageExpParams, CfImage.imageBaseParams,
    CfImage.expirationOf, htail, JsWeb.searchParamsSet, JsWeb.formQueryString, List.map,
    String.intercalate, String.intercalate.go, formEncode_natToString,
    formEncode_bytesToHex, hexp, hsig, String.append_assoc, String.append_empty]

/-- Witness for the amended C2 at ordinary alphanumeric components. -/
theorem c2_amended_witness :
    CfImage.getSignedImageUrlUsingID "Vi7wi5" "2cdc28f0" "avatar" "k1" 300 1700000000000 =
      "https://imagedelivery.net" ++ ("/" ++ "Vi7wi5" ++ "/" ++ "2cdc28f0" ++ "/" ++ "avatar") ++
        "?" ++ ("exp" ++ "=" ++ toString (1700000000000 / 1000 + 300)) ++ "&" ++
        ("sig" ++ "=" ++ Crypto.bytesToHex (Crypto.hmacSha256 (Crypto.utf8Bytes "k1")
          (Crypto.utf8Bytes (("/" ++ "Vi7wi5" ++ "/" ++ "2cdc28f0" ++ "/" ++ "avatar") ++ "?" ++
            ("exp" ++ "=" ++ toString (1700000000000 / 1000 + 300)))))) :=
  c2_amended "Vi7wi5" "2cdc28f0" "avatar" "k1" 300 1700000000000
    (by decide) (by decide) (by decide)

/-- C1: for every argument tuple and fixed timestamp, the `X-Amz-Signature`
value `getPreSignedUploadUrl` appends is exactly the AWS Signature Version 4
signature the specification describes, and the returned URL's query carries
it. -/
theorem c1_upload_sigv4 (fileName accountId accessKeyId secretAccessKey bucketName : String)
    (expiresIn : Nat) (contentType : String) (nowMs : Nat) :
    R2.uploadSignature fileName accountId accessKeyId secretAccessKey bucketName
        expiresIn contentType (JsWeb.amzDateOfMs nowMs) =
      R2.sigV4SpecSignature fileName contentType bucketName accountId secretAccessKey
        (R2.buildCanonicalQueryString (R2.uploadQueryParams accessKeyId expiresIn
          (JsWeb.amzDateOfMs nowMs) ((JsWeb.amzDateOfMs nowMs).take 8)))
        (JsWeb.amzDateOfMs nowMs) ((JsWeb.amzDateOfMs nowMs).take 8) ∧
    ("X-Amz-Signature",
      R2.uploadSignature fileName accountId accessKeyId secretAccessKey bucketName
        expiresIn contentType (JsWeb.amzDateOfMs nowMs)) ∈
      R2.uploadFinalParams fileName accountId accessKeyId secretAccessKey bucketName
        expiresIn contentType (JsWeb.amzDateOfMs nowMs) ∧
    R2.getPreSignedUploadUrl fileName accountId accessKeyId secretAccessKey bucketName
        expiresIn contentType nowMs =
      R2.endpoint bucketName accountId ++ R2.canonicalUri fileName ++ "?" ++
        R2.buildCanonicalQueryString (R2.uploadFinalParams fileName accountId accessKeyId
          secretAccessKey bucketName expiresIn contentType (JsWeb.amzDateOfMs nowMs)) := by
  refine ⟨?_, ?_, rfl⟩
  · simp only [R2.uploadSignature, R2.sigV4SpecSignature, R2.uploadStringToSign,
      R2.uploadCanonicalRequest, R2.uploadCanonicalHeaders, R2.canonicalUri,
      R2.getSignatureKey, Crypto.hmacSha256Hex, String.append_assoc]
    rfl
  · have : R2.uploadFinalParams fileName accountId accessKeyId secretAccessKey bucketName
        expiresIn contentType (JsWeb.amzDateOfMs nowMs) =
        R2.uploadQueryParams accessKeyId expiresIn (JsWeb.amzDateOfMs nowMs)
            ((JsWeb.amzDateOfMs nowMs).take 8) ++
          [("X-Amz-Signature",
            R2.uploadSignature fileName accountId accessKeyId secretAccessKey bucketName
              expiresIn contentType (JsWeb.amzDateOfMs nowMs))] := rfl
    rw [this]
    exact List.mem_append_right _ (List.mem_singleton.mpr rfl)

/-- The final upload query parameters are the seven originals with the
signature appended (`X-Amz-Signature` is absent beforehand). -/
theorem uploadFinalParams_eq (fileName accountId accessKeyId secretAccessKey bucketName : String)
    (expiresIn : Nat) (contentType : String) (amzDate : String) :
    R2.uploadFinalParams fileName accountId accessKeyId secretAccessKey bucketName
        expiresIn contentType amzDate =
      R2.uploadQueryParams accessKeyId expiresIn amzDate (amzDate.take 8) ++
        [("X-Amz-Signature",
          R2.uploadSignature fileName accountId accessKeyId secretAccessKey bucketName
            expiresIn contentType amzDate)] := rfl

/-- The final download query parameters, likewise. -/
theorem downloadFinalParams_eq (fileName accountId accessKeyId secretAccessKey bucketName : String)
    (expiresIn : Nat) (amzDate : String) :
    R2.downloadFinalParams fileName accountId accessKeyId secretAccessKey bucketName
        expiresIn amzDate =
      R2.downloadQueryParams accessKeyId expiresIn amzDate (amzDate.take 8) ++
        [("X-Amz-Signature",
          R2.downloadSignature fileName accountId accessKeyId secretAccessKey bucketName
            expiresIn amzDate)] := rfl

/-- C5: both generators return
`https://{bucket}.{account}.r2.cloudflarestorage.com/{fileName}?{query}`,
whose parameters carry the SigV4 algorithm, unsigned payload, the decimal
expiry, a signature, and the respective signed-headers and `x-id` values. -/
theorem c5_presigned_url_shape (fileName accountId accessKeyId secretAccessKey bucketName : String)
    (expiresIn : Nat) (contentType : String) (nowMs : Nat) :
    (R2.getPreSignedUploadUrl fileName accountId accessKeyId secretAccessKey bucketName
        expiresIn contentType nowMs =
      "https://" ++ bucketName ++ "." ++ accountId ++ ".r2.cloudflarestorage.com" ++ "/" ++
        fileName ++ "?" ++
        R2.buildCanonicalQueryString (R2.uploadFinalParams fileName accountId accessKeyId
          secretAccessKey bucketName expiresIn contentType (JsWeb.amzDateOfMs nowMs))) ∧
    (let u := R2.uploadFinalParams fileName accountId accessKeyId secretAccessKey bucketName
        expiresIn contentType (JsWeb.amzDateOfMs nowMs)
     ("X-Amz-Algorithm", "AWS4-HMAC-SHA256") ∈ u ∧
     ("X-Amz-Content-Sha256", "UNSIGNED-PAYLOAD") ∈ u ∧
     ("X-Amz-Expires", toString expiresIn) ∈ u ∧
     (∃ s, ("X-Amz-Signature", s) ∈ u) ∧
     ("X-Amz-SignedHeaders", "content-type;host") ∈ u ∧
     ("x-id", "PutObject") ∈ u) ∧
    (R2.getPreSignedDownloadUrl fileName accountId accessKeyId secretAccessKey bucketName
        expiresIn nowMs =
      "https://" ++ bucketName ++ "." ++ accountId ++ ".r2.cloudflarestorage.com" ++ "/" ++
        fileName ++ "?" ++
        R2.buildCanonicalQueryString (R2.downloadFinalParams fileName accountId accessKeyId
          secretAccessKey bucketName expiresIn (JsWeb.amzDateOfMs nowMs))) ∧
    (let d := R2.downloadFinalParams fileName accountId accessKeyId secretAccessKey bucketName
        expiresIn (JsWeb.amzDateOfMs nowMs)
     ("X-Amz-Algorithm", "AWS4-HMAC-SHA256") ∈ d ∧
     ("X-Amz-Content-Sha256", "UNSIGNED-PAYLOAD") ∈ d ∧
     ("X-Amz-Expires", toString expiresIn) ∈ d ∧
     (∃ s, ("X-Amz-Signature", s) ∈ d) ∧
     ("X-Amz-SignedHeaders", "host") ∈ d ∧
     ("x-id", "GetObject") ∈ d) := by
  refine ⟨?_, ?_, ?_, ?_⟩
  · simp only [R2.getPreSignedUploadUrl, R2.endpoint, R2.canonicalUri, String.append_assoc]
  · simp [uploadFinalParams_eq, R2.uploadQueryParams]
  · simp only [R2.getPreSignedDownloadUrl, R2.endpoint, R2.canonicalUri, String.append_assoc]
  · simp [downloadFinalParams_eq, R2.downloadQueryParams]

/-- C6: `buildCanonicalQueryString` emits the entries sorted ascending by
key, key and value percent-encoded and joined as `k=v` with `&`; hence the
query of each returned URL — signature included — lists its parameters in
sorted key order. -/
theorem c6_canonical_query_sorted (params : List (String × String))
    (fileName accountId accessKeyId secretAccessKey bucketName : String)
    (expiresIn : Nat) (contentType : String) (nowMs : Nat) :
    R2.buildCanonicalQueryString params =
      String.intercalate "&" ((JsWeb.sortByKey params).map fun kv =>
        JsWeb.encodeURIComponent kv.1 ++ "=" ++ JsWeb.encodeURIComponent kv.2) ∧
    List.Sorted JsWeb.keyLE (JsWeb.sortByKey params) ∧
    (R2.getPreSignedUploadUrl fileName accountId accessKeyId secretAccessKey bucketName
        expiresIn contentType nowMs =
      R2.endpoint bucketName accountId ++ R2.canonicalUri fileName ++ "?" ++
        String.intercalate "&" ((JsWeb.sortByKey (R2.uploadFinalParams fileName accountId
            accessKeyId secretAccessKey bucketName expiresIn contentType
            (JsWeb.amzDateOfMs nowMs))).map fun kv =>
          JsWeb.encodeURIComponent kv.1 ++ "=" ++ JsWeb.encodeURIComponent kv.2)) ∧
    List.Sorted JsWeb.keyLE (JsWeb.sortByKey (R2.uploadFinalParams fileName accountId
      accessKeyId secretAccessKey bucketName expiresIn contentType
      (JsWeb.amzDateOfMs nowMs))) ∧
    ("X-Amz-Signature",
      R2.uploadSignature fileName accountId accessKeyId secretAccessKey bucketName
        expiresIn contentType (JsWeb.amzDateOfMs nowMs)) ∈
      JsWeb.sortByKey (R2.uploadFinalParams fileName accountId accessKeyId secretAccessKey
        bucketName expiresIn contentType (JsWeb.amzDateOfMs nowMs)) ∧
    List.Sorted JsWeb.keyLE (JsWeb.sortByKey (R2.downloadFinalParams fileName accountId
      accessKeyId secretAccessKey bucketName expiresIn (JsWeb.amzDateOfMs nowMs))) := by
  refine ⟨rfl, List.sorted_insertionSort _ _, rfl, List.sorted_insertionSort _ _, ?_,
    List.sorted_insertionSort _ _⟩
  exact ((List.perm_insertionSort _ _).mem_iff).mpr
    (by rw [uploadFinalParams_eq]; exact List.mem_append_right _ (List.mem_singleton.mpr rfl))

/-- C10: the canonical URI signed and the path of the returned URL are the
literal `"/" + fileName`, with no URI-encoding anywhere — including for a
name carrying spaces, `?` and `#`. -/
theorem c10_raw_filename (fileName accountId accessKeyId secretAccessKey bucketName : String)
    (expiresIn : Nat) (contentType : String) (nowMs : Nat) :
    R2.canonicalUri fileName = "/" ++ fileName ∧
    R2.uploadCanonicalRequest fileName accountId accessKeyId bucketName expiresIn
        contentType (JsWeb.amzDateOfMs nowMs) =
      String.intercalate "\n"
        ["PUT", "/" ++ fileName,
         R2.buildCanonicalQueryString (R2.uploadQueryParams accessKeyId expiresIn
           (JsWeb.amzDateOfMs nowMs) ((JsWeb.amzDateOfMs nowMs).take 8)),
         R2.uploadCanonicalHeaders contentType bucketName accountId,
         "content-type;host", "UNSIGNED-PAYLOAD"] ∧
    R2.downloadCanonicalRequest fileName accountId accessKeyId bucketName expiresIn
        (JsWeb.amzDateOfMs nowMs) =
      String.intercalate "\n"
        ["GET", "/" ++ fileName,
         R2.buildCanonicalQueryString (R2.downloadQueryParams accessKeyId expiresIn
           (JsWeb.amzDateOfMs nowMs) ((JsWeb.amzDateOfMs nowMs).take 8)),
         "host:" ++ bucketName ++ "." ++ accountId ++ ".r2.cloudflarestorage.com\n",
         "host", "UNSIGNED-PAYLOAD"] ∧
    R2.getPreSignedUploadUrl fileName accountId accessKeyId secretAccessKey bucketName
        expiresIn contentType nowMs =
      R2.endpoint bucketName accountId ++ ("/" ++ fileName) ++ "?" ++
        R2.buildCanonicalQueryString (R2.uploadFinalParams fileName accountId accessKeyId
          secretAccessKey bucketName expiresIn contentType (JsWeb.amzDateOfMs nowMs)) ∧
    R2.getPreSignedDownloadUrl fileName accountId accessKeyId secretAccessKey bucketName
        expiresIn nowMs =
      R2.endpoint bucketName accountId ++ ("/" ++ fileName) ++ "?" ++
        R2.buildCanonicalQueryString (R2.downloadFinalParams fileName accountId accessKeyId
          secretAccessKey bucketName expiresIn (JsWeb.amzDateOfMs nowMs)) ∧
    (∃ rest,
      R2.getPreSignedUploadUrl "my file?#v1.png" "acc" "AK" "SK" "bkt" 900 "image/png" 0 =
        "https://bkt.acc.r2.cloudflarestorage.com/my file?#v1.png?" ++ rest) :=
  ⟨rfl, rfl, rfl, rfl, rfl,
   ⟨R2.buildCanonicalQueryString (R2.uploadFinalParams "my file?#v1.png" "acc" "AK" "SK"
      "bkt" 900 "image/png" (JsWeb.amzDateOfMs 0)), rfl⟩⟩

/-- C3 counterexample: with every argument fixed, two invocations of
`getPreSignedUploadUrl` whose `new Date()` reads fall on different days
return different URLs — the function does depend on the current time. -/
theorem c3_counterexample :
    R2.getPreSignedUploadUrl "file.txt" "account" "AKID" "SECRET" "bucket" 3600
        "text/plain" 0 ≠
      R2.getPreSignedUploadUrl "file.txt" "account" "AKID" "SECRET" "bucket" 3600
        "text/plain" 86400000 := by decide

/-- C3 amended: the generator is deterministic given its clock read — for a
fixed argument tuple, any two invocations whose `Date` reads render the
same SigV4 timestamp return the identical URL; the output depends on
ambient state only through that timestamp. -/
theorem c3_amended (fileName accountId accessKeyId secretAccessKey bucketName : String)
    (expiresIn : Nat) (contentType : String) (t1 t2 : Nat)
    (h : JsWeb.amzDateOfMs t1 = JsWeb.amzDateOfMs t2) :
    R2.getPreSignedUploadUrl fileName accountId accessKeyId secretAccessKey bucketName
        expiresIn contentType t1 =
      R2.getPreSignedUploadUrl fileName accountId accessKeyId secretAccessKey bucketName
        expiresIn contentType t2 := by
  simp only [R2.getPreSignedUploadUrl, h]

/-- Witness for the amended C3: two clock reads within the same second
yield the same URL. -/
theorem c3_amended_witness :
    JsWeb.amzDateOfMs 1000 = JsWeb.amzDateOfMs 1999 ∧
    R2.getPreSignedUploadUrl "f" "a" "k" "s" "b" 60 "t" 1000 =
      R2.getPreSignedUploadUrl "f" "a" "k" "s" "b" 60 "t" 1999 :=
  ⟨by decide, c3_amended "f" "a" "k" "s" "b" 60 "t" 1000 1999 (by decide)⟩
